import Mathlib

/-!
# modSync — verification of the synchronization engine

Shallow embedding of the client-side synchronization engine of the modSync
repository (`src/client/api.py`, `src/client/utils.py`, plus the
`src/modsync/client/download/manager.py` resume path), together with proofs
about its manifest diff, transfer strategies, integrity verification, backup
snapshot pre-flight check and batch download error handling.

Conventions of the embedding:
* file contents are `List Nat` (byte sequences);
* the SHA-256 hex digest computed by Python's `hashlib` is an external
  dependency and is passed in as an abstract function `hd : List Nat → String`
  (the code under verification never inspects digests, it only compares them);
* sizes follow Python `int` semantics and are embedded as `Int` where the
  source does arithmetic on them;
* fallible Python code is embedded with `Except PyErr`; each `PyErr`
  constructor names the Python exception class that escapes;
* filesystem side effects are recorded as an explicit event trace (`Ev`).
-/

set_option autoImplicit false

namespace ModSync

/-- Python exception classes that escape the embedded functions. -/
inductive PyErr where
  | valueError
  | nameError
  | attributeError
  | reqError
  | ioError
  deriving DecidableEq, Repr

/-- Filesystem / cache side effects, recorded in program order. -/
inductive Ev where
  /-- `open(path, "wb"/"ab")` followed by writing `bytes` during that open. -/
  | openWrite (path : String) (bytes : List Nat)
  /-- `path.unlink(...)` / `os.remove(path)`. -/
  | unlink (path : String)
  /-- `src.rename(dst)`. -/
  | rename (src dst : String)
  /-- deletion of a stale file inside `sync` (`(mods_path / f).unlink(missing_ok=True)`). -/
  | deleteFile (path : String)
  /-- `download_file_smart` is entered for `path` inside a sync / batch pass. -/
  | downloadStart (path : String)
  /-- `cache.pop(key, None)`. -/
  | cachePop (key : String)
  /-- `cache[key] = val`. -/
  | cacheSet (key : String) (val : String)
  /-- `save_cache(mods_path, cache)`. -/
  | saveCache
  /-- `rollback(mods_path)`. -/
  | rollback
  /-- `dir.mkdir(parents=True, exist_ok=True)` on the backup root. -/
  | mkdir (path : String)
  /-- `shutil.copy2(src, dst)`. -/
  | copy (src dst : String)
  /-- `os.link(src, dst)`. -/
  | hardlink (src dst : String)
  /-- worker returns its `(rel_path, size, error)` result tuple. -/
  | record (path : String) (err : Option String)
  /-- `cleanup_old_backups()`. -/
  | cleanup
  deriving DecidableEq, Repr

/-! ## HashStore — `utils.sha256` and `utils.verify_file_integrity`

`src/client/utils.py` lines 16–37 and 271–282. A file on disk is embedded as
`PyFile`; a filesystem is `String → Option PyFile` (`none` = the path does not
exist). `hd` stands for `hashlib.sha256(...).hexdigest()` on the file's bytes.
-/

/-- A filesystem entry as seen by `sha256` / `verify_file_integrity`:
`isFile` is `path.is_file()`, `readable = false` makes `open`/`read` raise
`IOError`/`OSError`, `content` is the byte content. -/
structure PyFile where
  isFile : Bool
  readable : Bool
  content : List Nat
  deriving DecidableEq, Repr

/-- `utils.sha256(path)`: returns `""` if the path does not exist or is not a
regular file, returns `""` if reading raises `IOError`/`OSError` (the except
branch), otherwise the hex digest of the content. -/
def sha256 (hd : List Nat → String) (fs : String → Option PyFile) (path : String) : String :=
  match fs path with
  | none => ""
  | some fl =>
      if fl.isFile then
        if fl.readable then hd fl.content else ""
      else ""

/-- `utils.verify_file_integrity(file_path, expected_hash)`: `False` if the
path does not exist or is not a regular file, otherwise the recomputed
`sha256` digest is compared to `expected_hash` with Python `!=`, i.e. exact
(case-sensitive) string equality. -/
def verify_file_integrity (hd : List Nat → String) (fs : String → Option PyFile)
    (path : String) (expected : String) : Bool :=
  match fs path with
  | none => false
  | some fl =>
      if fl.isFile then sha256 hd fs path == expected else false

/-! ## DiffEngine — the diff computed inside `ModSyncAPI.sync`

`src/client/api.py` lines 348–364. The local listing is the set of files
produced by `os.walk`, keeping a path only when its basename (the `f`
component in the walk) does not start with `".modsync_"`. The remote manifest
is a finite set of paths `remote` with per-path metadata `rsize`/`rhash`;
`rhash f : Option String` because the repository's `/manifest` server
(`build_manifest`, test_delete_logic/sync.py line 85) emits `"hash": None`
for every file of 50 MiB or more, so `info["hash"]` is a string *or* Python
`None`. The on-disk state consulted by the update test (`p.exists()` /
`p.stat().st_size`) is a separate query `fsStat : String → Option Int`
(`none` = not exists), and `cache.get(f)` is
`cacheGet : String → Option String` (`none` = key absent / Python `None`). -/

/-- Final path component, as `os.walk` presents the file name `f`. -/
def basename (p : String) : String :=
  (p.splitOn "/").getLastD p

/-- The `local_files` set of `sync`: every walked path whose basename does not
start with `".modsync_"`. -/
def localFiles (walk : Finset String) : Finset String :=
  walk.filter (fun p => ¬ (basename p).startsWith ".modsync_")

/-- `to_delete = local_files - server_files` (api.py line 356). -/
def toDelete (walk : Finset String) (remote : Finset String) : Finset String :=
  localFiles walk \ remote

/-- The per-file condition of api.py line 362:
`not p.exists() or p.stat().st_size != info["size"] or cache.get(f) != info["hash"]`.
Both sides of the hash comparison are Python values that may be `None`
(`cache.get` on a missing key, `info["hash"]` on a ≥ 50 MiB manifest entry),
compared with `!=` on the values; in particular `None != None` is false, so a
size-matching path with no cache entry and a null remote hash is NOT
fetched. -/
def fetchCond (fsStat : String → Option Int) (cacheGet : String → Option String)
    (rsize : String → Int) (rhash : String → Option String) (f : String) : Bool :=
  match fsStat f with
  | none => true
  | some s => s != rsize f || cacheGet f != rhash f

/-- `to_update`: the remote paths satisfying `fetchCond` (api.py lines 360–364). -/
def toFetch (remote : Finset String) (fsStat : String → Option Int)
    (cacheGet : String → Option String) (rsize : String → Int)
    (rhash : String → Option String) : Finset String :=
  remote.filter (fun f => fetchCond fsStat cacheGet rsize rhash f)

/-- Modelled from the spec: `sync` materializes only `to_delete` and
`to_update`; the spec's `DiffResult.unchanged` is "everything else", i.e. the
members of the union of the local and remote path sets lying in neither of the
two computed sets. -/
def unchanged (walk : Finset String) (remote : Finset String) (fsStat : String → Option Int)
    (cacheGet : String → Option String) (rsize : String → Int)
    (rhash : String → Option String) : Finset String :=
  (localFiles walk ∪ remote) \
    (toDelete walk remote ∪ toFetch remote fsStat cacheGet rsize rhash)

theorem toDelete_subset_local (walk remote : Finset String) :
    toDelete walk remote ⊆ localFiles walk :=
  Finset.sdiff_subset

theorem toFetch_subset_remote (remote : Finset String) (fsStat : String → Option Int)
    (cacheGet : String → Option String) (rsize : String → Int)
    (rhash : String → Option String) :
    toFetch remote fsStat cacheGet rsize rhash ⊆ remote :=
  Finset.filter_subset _ _

/-- C2: for every local walk result, remote manifest and cached-hash mapping
(and every on-disk stat view), the three diff sets `toDelete`, `toFetch`,
`unchanged` are pairwise disjoint and their union is exactly the union of the
local path set and the remote path set. -/
theorem diff_partition (walk remote : Finset String) (fsStat : String → Option Int)
    (cacheGet : String → Option String) (rsize : String → Int)
    (rhash : String → Option String) :
    Disjoint (toDelete walk remote) (toFetch remote fsStat cacheGet rsize rhash) ∧
    Disjoint (toDelete walk remote) (unchanged walk remote fsStat cacheGet rsize rhash) ∧
    Disjoint (toFetch remote fsStat cacheGet rsize rhash)
      (unchanged walk remote fsStat cacheGet rsize rhash) ∧
    toDelete walk remote ∪ toFetch remote fsStat cacheGet rsize rhash ∪
        unchanged walk remote fsStat cacheGet rsize rhash =
      localFiles walk ∪ remote := by
  have hAB : Disjoint (toDelete walk remote) (toFetch remote fsStat cacheGet rsize rhash) := by
    rw [Finset.disjoint_left]
    intro a ha hb
    have h1 : a ∉ remote := (Finset.mem_sdiff.mp ha).2
    exact h1 (toFetch_subset_remote remote fsStat cacheGet rsize rhash hb)
  have hUdisj : Disjoint
      (toDelete walk remote ∪ toFetch remote fsStat cacheGet rsize rhash)
      (unchanged walk remote fsStat cacheGet rsize rhash) := by
    exact Finset.disjoint_sdiff
  have hsub : toDelete walk remote ∪ toFetch remote fsStat cacheGet rsize rhash ⊆
      localFiles walk ∪ remote := by
    apply Finset.union_subset
    · exact Finset.Subset.trans (toDelete_subset_local walk remote) Finset.subset_union_left
    · exact Finset.Subset.trans (toFetch_subset_remote remote fsStat cacheGet rsize rhash)
        Finset.subset_union_right
  refine ⟨hAB, ?_, ?_, ?_⟩
  · exact Finset.disjoint_of_subset_left Finset.subset_union_left hUdisj
  · exact Finset.disjoint_of_subset_left Finset.subset_union_right hUdisj
  · rw [Finset.union_assoc, ← Finset.union_assoc, unchanged,
      Finset.union_sdiff_of_subset hsub]

/-- C3: a path is in `toFetch` iff it is in the remote manifest and (it does
not exist locally, or its local size differs from the remote size, or the
cached hash value differs from the remote hash value — both are Python
objects that may be `None`: a missing cache entry is `None`, and the remote
hash is `None` for manifest entries of 50 MiB and more, so in particular a
size-matching path with no cache entry and a null remote hash compares
`None != None` = false and is NOT fetched, as the last conjunct states
explicitly); a path is in `toDelete` iff it is in the walked local file set
and absent from the remote manifest. -/
theorem toFetch_toDelete_membership (walk remote : Finset String)
    (fsStat : String → Option Int) (cacheGet : String → Option String)
    (rsize : String → Int) (rhash : String → Option String) (f : String) :
    (f ∈ toFetch remote fsStat cacheGet rsize rhash ↔
      f ∈ remote ∧ (fsStat f = none ∨
        (∃ s, fsStat f = some s ∧ s ≠ rsize f) ∨ cacheGet f ≠ rhash f)) ∧
    (f ∈ toDelete walk remote ↔ f ∈ localFiles walk ∧ f ∉ remote) ∧
    (f ∈ remote → fsStat f = some (rsize f) → cacheGet f = none → rhash f = none →
      f ∉ toFetch remote fsStat cacheGet rsize rhash) := by
  refine ⟨?_, ?_, ?_⟩
  · rw [toFetch, Finset.mem_filter, fetchCond]
    cases h : fsStat f with
    | none => simp
    | some s =>
        simp only [h, Bool.or_eq_true, bne_iff_ne, ne_eq, Option.some.injEq]
        constructor
        · rintro ⟨hr, hc⟩
          refine ⟨hr, ?_⟩
          rcases hc with hs | hcache
          · exact Or.inr (Or.inl ⟨s, rfl, hs⟩)
          · exact Or.inr (Or.inr (by simpa using hcache))
        · rintro ⟨hr, hn | hex | hcache⟩
          · simp [h] at hn
          · rcases hex with ⟨s', hs', hne⟩
            exact ⟨hr, Or.inl (hs' ▸ hne)⟩
          · exact ⟨hr, Or.inr (by simpa using hcache)⟩
  · rw [toDelete, Finset.mem_sdiff]
  · intro hrem hstat hcacheNone hrhashNone
    rw [toFetch, Finset.mem_filter]
    rintro ⟨-, hcond⟩
    rw [fetchCond, hstat] at hcond
    simp [hcacheNone, hrhashNone] at hcond

/-- C3 (witness): a manifest entry with a null hash (as the server emits for
files of 50 MiB and more), whose local size matches and which has no cache
entry, is not placed in `toFetch`. -/
theorem toFetch_toDelete_membership_witness :
    "big.jar" ∉ toFetch {"big.jar"} (fun _ => some 52428800) (fun _ => none)
      (fun _ => 52428800) (fun _ => none) :=
  (toFetch_toDelete_membership {"big.jar"} {"big.jar"} (fun _ => some 52428800)
    (fun _ => none) (fun _ => 52428800) (fun _ => none) "big.jar").2.2
    (by simp) rfl rfl rfl

/-! ## Transporter — `download_file_resume` (api.py 97–166) and
`download_file` (api.py 230–253)

Each function is embedded as one streamed GET attempt. The source wraps the
resumable attempt in a `for attempt in range(max_attempts)` retry loop, but
the `except` handler (api.py line 157) immediately evaluates `logger.warning`
and `api.py` defines no module-level `logger` (only `self.logger`), so every
caught `RequestException`/`IOError`/`OSError` escapes as a `NameError` before
a second attempt can start; the embedding therefore models exactly one
attempt, with `.error .nameError` for every caught-then-relogged failure. -/

/-- The fields of `file_info` consumed by the download paths:
`size = file_info["size"]`, `hash = file_info.get("hash")` (`none` when the
key is missing or falsy). -/
structure DlFileInfo where
  size : Int
  hash : Option String
  deriving DecidableEq, Repr

/-- A server response to one streamed GET: `net` when the request itself
raises `requests.RequestException`; otherwise the HTTP status, the optional
`Content-Length` header, and the body as the chunk sequence that
`iter_content` yields. -/
inductive Resp where
  | net
  | resp (status : Nat) (contentLength : Option Int) (chunks : List (List Nat))
  deriving DecidableEq, Repr

/-- `temp_dest = dest.with_suffix(dest.suffix + ".tmp")`, i.e. `dest` with
`".tmp"` appended. -/
def tempName (dest : String) : String := dest ++ ".tmp"

/-- The chunk-write loop of `download_file_resume` (api.py lines 126–141),
entered with `downloaded = d`. Returns `(bytes written, final downloaded,
completed)`. `completed = false` records the loop dying with `AttributeError`:
when `downloaded` hits an exact multiple of `10*1024*1024` with a known hash,
the code calls `self._check_partial_hash`, a method that does not exist on
`ModSyncAPI`. Empty chunks are skipped (`if not chunk: continue`). -/
def chunkWrite (hashKnown : Bool) : List (List Nat) → Int → List Nat × Int × Bool
  | [], d => ([], d, true)
  | c :: cs, d =>
      if c = [] then chunkWrite hashKnown cs d
      else
        let d' := d + (c.length : Int)
        if hashKnown ∧ d' % (10 * 1024 * 1024) = 0 then (c, d', false)
        else
          let r := chunkWrite hashKnown cs d'
          (c ++ r.1, r.2.1, r.2.2)

deriving instance DecidableEq for Except

/-- Outcome of one embedded transfer: the event trace, the final content of
the temporary file and of the destination file (`none` = absent), and the
return value / escaped exception. -/
structure TransferOut where
  events : List Ev
  temp : Option (List Nat)
  dest : Option (List Nat)
  result : Except PyErr Int
  deriving DecidableEq, Repr

/-- `ModSyncAPI.download_file_resume` (api.py lines 97–166), one attempt.
`temp0`/`dest0` are the prior contents of `temp_dest`/`dest` (`none` =
absent); `hd` is the `hashlib` hex digest. Mirrors, in order: the `Range`
resume bookkeeping, `raise_for_status`, the non-206 restart (lines 116–120),
`remaining`/`total` from the `Content-Length` header (line 122), the chunk
loop, the final `verify_file_integrity` gate (line 144), the
`downloaded != total` gate (line 147), and the unlink-then-rename promotion
(lines 151–153). -/
def download_file_resume (hd : List Nat → String) (dest : String) (info : DlFileInfo)
    (temp0 : Option (List Nat)) (dest0 : Option (List Nat)) (r : Resp) : TransferOut :=
  let downloaded0 : Int := (temp0.map fun l => (l.length : Int)).getD 0
  match r with
  | .net => ⟨[], temp0, dest0, .error .nameError⟩
  | .resp status cl chunks =>
      if 400 ≤ status then ⟨[], temp0, dest0, .error .nameError⟩
      else
        let reset : Bool := decide (0 < downloaded0) && decide (status ≠ 206)
        let ev1 : List Ev := if reset then [.unlink (tempName dest)] else []
        let temp1 := if reset then none else temp0
        let downloaded1 : Int := if reset then 0 else downloaded0
        let remaining := cl.getD (info.size - downloaded1)
        let total := downloaded1 + remaining
        let w := chunkWrite info.hash.isSome chunks downloaded1
        let newTemp := temp1.getD [] ++ w.1
        let ev2 := ev1 ++ [.openWrite (tempName dest) w.1]
        if w.2.2 = false then ⟨ev2, some newTemp, dest0, .error .attributeError⟩
        else
          let verified : Bool := match info.hash with
            | none => true
            | some h => verify_file_integrity hd
                (fun p => if p = tempName dest then some ⟨true, true, newTemp⟩ else none)
                (tempName dest) h
          if verified = false then ⟨ev2, some newTemp, dest0, .error .nameError⟩
          else if w.2.1 ≠ total then ⟨ev2, some newTemp, dest0, .error .nameError⟩
          else
            ⟨ev2 ++ (if dest0.isSome then [.unlink dest] else []) ++
                [.rename (tempName dest) dest],
              none, some newTemp, .ok total⟩

/-- `ModSyncAPI.download_file` (api.py lines 230–253): the simple single-GET
strategy. It opens the destination path itself with mode `"wb"` and streams
the body into it; there is no temporary file, no size gate and no hash gate.
On any exception it unlinks the destination and re-raises. Returns the
`Content-Length` header value (`0` when absent). -/
def download_file (dest : String) (r : Resp) : TransferOut :=
  match r with
  | .net => ⟨[.unlink dest], none, none, .error .reqError⟩
  | .resp status cl chunks =>
      if 400 ≤ status then ⟨[.unlink dest], none, none, .error .reqError⟩
      else
        ⟨[.openWrite dest chunks.flatten], none, some chunks.flatten, .ok (cl.getD 0)⟩

/-! ### `DownloadManager._download_with_resume` (manager.py lines 253–348)

The second resumable implementation named by the spec. Unlike the api.py
variant it has no temporary file: it resumes the *destination* path itself,
choosing `mode='ab'` plus a `Range` header exactly when the file exists with
`0 < size < file_size` (manager.py 260–269). Requests go through
`ConnectionManager.make_request_with_retry`, which calls
`raise_for_status()` and only ever returns success-status responses, so an
error status is operationally the request raising — both surface as a caught
exception in the attempt's `except` clause (which sleeps and retries, or on
the last attempt removes the file). The embedding models one attempt
(attempt 0, so the `is_server_available` pre-check is skipped) with the
cancellation flag unset: `r1` answers the initial, possibly ranged, request
and `r2` answers the plain fallback request issued at manager.py 294–296 when
a resume gets a non-206 status (`mode` is reset to `'wb'`, so the following
`open` truncates the partial file). After the body is written the size gate
of manager.py 327–337 returns `true` or removes the file and returns
`false`. -/

/-- Outcome of one `_download_with_resume` attempt: events, the final content
of the destination path, and `some b` for a boolean return / `none` for a
caught exception (the surrounding retry loop would continue). -/
structure MgrOut where
  events : List Ev
  localFile : Option (List Nat)
  result : Option Bool
  deriving DecidableEq, Repr

/-- manager.py lines 260–269: resume (`mode='ab'` and a `Range` header) iff
the destination exists with `0 < downloaded_size < file_size`. -/
def managerResumes (fileSize : Int) (local0 : Option (List Nat)) : Bool :=
  match local0 with
  | none => false
  | some p =>
      decide ((0:Int) < ((p.length : Nat) : Int)) &&
        decide (((p.length : Nat) : Int) < fileSize)

/-- `DownloadManager._download_with_resume` (manager.py 253–348), one
attempt. -/
def download_with_resume (localPath : String) (fileSize : Int)
    (local0 : Option (List Nat)) (r1 r2 : Resp) : MgrOut :=
  let ab := managerResumes fileSize local0
  match r1 with
  | .net => ⟨[], local0, none⟩
  | .resp status _ chunks =>
      if 400 ≤ status then ⟨[], local0, none⟩
      else if ab = true ∧ status ≠ 206 then
        match r2 with
        | .net => ⟨[], local0, none⟩
        | .resp status2 _ chunks2 =>
            if 400 ≤ status2 then ⟨[], local0, none⟩
            else
              let written := chunks2.flatten
              if ((written.length : Nat) : Int) = fileSize then
                ⟨[.openWrite localPath written], some written, some true⟩
              else ⟨[.openWrite localPath written, .unlink localPath], none, some false⟩
      else
        let base := if ab then local0.getD [] else []
        let content := base ++ chunks.flatten
        if ((content.length : Nat) : Int) = fileSize then
          ⟨[.openWrite localPath chunks.flatten], some content, some true⟩
        else ⟨[.openWrite localPath chunks.flatten, .unlink localPath], none, some false⟩

theorem chunkWrite_length (hk : Bool) (chunks : List (List Nat)) (d : Int) :
    (chunkWrite hk chunks d).2.1 = d + ((chunkWrite hk chunks d).1.length : Int) := by
  induction chunks generalizing d with
  | nil => simp [chunkWrite]
  | cons c cs ih =>
      by_cases hc : c = []
      · simpa [chunkWrite, hc] using ih d
      · rw [chunkWrite, if_neg hc]
        dsimp only
        split
        · simp
        · simp only [List.length_append]
          rw [ih (d + (c.length : Int))]
          push_cast
          ring

theorem chunkWrite_take (hk : Bool) (chunks : List (List Nat)) (d : Int) :
    ∃ k, (chunkWrite hk chunks d).1 = (chunks.take k).flatten := by
  induction chunks generalizing d with
  | nil => exact ⟨0, by simp [chunkWrite]⟩
  | cons c cs ih =>
      by_cases hc : c = []
      · obtain ⟨k, hk'⟩ := ih d
        exact ⟨k + 1, by simp [chunkWrite, hc, hk']⟩
      · rw [chunkWrite, if_neg hc]
        dsimp only
        split
        · exact ⟨1, by simp⟩
        · obtain ⟨k, hk'⟩ := ih (d + (c.length : Int))
          exact ⟨k + 1, by simp [hk']⟩

/-- C8 (counterexample): the hex-digest comparison of
`verify_file_integrity` is NOT case-insensitive. With the digest function
returning `"ab"` for the file's content, verification against `"ab"` succeeds
but against `"AB"` — the uppercase rendering of the same digest value — it
fails, because the source compares with Python `!=` on the exact strings
(utils.py line 277) and `hashlib`'s `hexdigest()` output is lowercase. -/
theorem verify_uppercase_cex :
    verify_file_integrity (fun _ => "ab")
      (fun p => if p = "f" then some ⟨true, true, [0]⟩ else none) "f" "ab" = true ∧
    verify_file_integrity (fun _ => "ab")
      (fun p => if p = "f" then some ⟨true, true, [0]⟩ else none) "f" "AB" = false ∧
    ("ab" : String).data.map Char.toUpper = ("AB" : String).data := by
  refine ⟨?_, ?_, ?_⟩ <;> decide

/-- C8 (amended): `verify_file_integrity` totally returns a boolean (the
embedding is a total function into `Bool`); it returns `false` when the file
is missing or not a regular file; when the file exists but is unreadable it
returns `false` for every nonempty expected digest (the recomputed digest is
then the empty string); and in general it returns `true` exactly when the file
exists, is a regular file, and the recomputed `sha256` digest is exactly —
case-sensitively — equal to the expected string. -/
theorem verify_file_integrity_characterization (hd : List Nat → String)
    (fs : String → Option PyFile) (p e : String) :
    (fs p = none → verify_file_integrity hd fs p e = false) ∧
    (∀ fl, fs p = some fl → fl.isFile = true → fl.readable = false → e ≠ "" →
      verify_file_integrity hd fs p e = false) ∧
    (verify_file_integrity hd fs p e = true ↔
      ∃ fl, fs p = some fl ∧ fl.isFile = true ∧ sha256 hd fs p = e) := by
  refine ⟨?_, ?_, ?_⟩
  · intro h
    simp [verify_file_integrity, h]
  · intro fl hfl hisf hread he
    simp [verify_file_integrity, sha256, hfl, hisf, hread]
    exact fun h => absurd h.symm he
  · cases hfs : fs p with
    | none => simp [verify_file_integrity, hfs]
    | some fl =>
        by_cases hisf : fl.isFile = true
        · simp [verify_file_integrity, hfs, hisf]
        · simp [verify_file_integrity, hfs, hisf]

/-- C8 (witness for the amended theorem): concrete instantiations of each
hypothesis-bearing conjunct. -/
theorem verify_file_integrity_characterization_witness :
    verify_file_integrity (fun _ => "ab") (fun _ => none) "x" "ab" = false ∧
    verify_file_integrity (fun _ => "ab")
      (fun q => if q = "y" then some ⟨true, false, [0]⟩ else none) "y" "ab" = false := by
  constructor
  · exact (verify_file_integrity_characterization (fun _ => "ab") (fun _ => none) "x" "ab").1 rfl
  · exact (verify_file_integrity_characterization (fun _ => "ab")
      (fun q => if q = "y" then some ⟨true, false, [0]⟩ else none) "y" "ab").2.1
      ⟨true, false, [0]⟩ (by simp) rfl rfl (by decide)

/-- C7, covering both resumable implementations the claim names.
`ModSyncAPI.download_file_resume` (api.py 103–125): in an attempt that sends
a `Range` header because the temporary file already holds `p ≠ []` bytes, a
non-206 success reply makes the client first unlink the partial temporary
file and then rewrite it from byte zero — the bytes landing in the temporary
file (and, on promotion, in the destination) are a take-prefix of the fresh
response body only.
`DownloadManager._download_with_resume` (manager.py 282–296): in an attempt
that sends a `Range` header because the destination holds `q` bytes with
`0 < |q| < fileSize`, a non-206 success reply makes the client drop the
ranged response, reset to `mode='wb'` / `downloaded_size=0`, and re-request
without `Range`: either that fallback request fails and nothing is written
(partial bytes untouched), or the destination is truncated and rewritten
with exactly the fallback response's body (then size-gated). In neither
implementation is the full-response body ever appended after the partial
bytes. -/
theorem resume_non206_restarts (hd : List Nat → String) (dest : String) (info : DlFileInfo)
    (p : List Nat) (dest0 : Option (List Nat)) (status : Nat) (cl : Option Int)
    (chunks : List (List Nat)) (localPath : String) (fileSize : Int) (q : List Nat)
    (status1 : Nat) (cl1 : Option Int) (chunks1 : List (List Nat)) (r2 : Resp)
    (hp : p ≠ []) (h206 : status ≠ 206) (hlt : status < 400)
    (hq0 : q ≠ []) (hqsz : ((q.length : Nat) : Int) < fileSize)
    (h206b : status1 ≠ 206) (hltb : status1 < 400) :
    ((download_file_resume hd dest info (some p) dest0 (.resp status cl chunks)).events.head? =
        some (.unlink (tempName dest)) ∧
      ∃ k, (download_file_resume hd dest info (some p) dest0 (.resp status cl chunks)).temp =
            some ((chunks.take k).flatten) ∨
          ((download_file_resume hd dest info (some p) dest0
              (.resp status cl chunks)).temp = none ∧
           (download_file_resume hd dest info (some p) dest0 (.resp status cl chunks)).dest =
            some ((chunks.take k).flatten))) ∧
    (((download_with_resume localPath fileSize (some q)
          (.resp status1 cl1 chunks1) r2).localFile = some q ∧
       (download_with_resume localPath fileSize (some q)
          (.resp status1 cl1 chunks1) r2).events = []) ∨
     ∃ st2 cl2 chunks2, r2 = .resp st2 cl2 chunks2 ∧
       ((download_with_resume localPath fileSize (some q)
            (.resp status1 cl1 chunks1) r2).localFile = some chunks2.flatten ∨
        (download_with_resume localPath fileSize (some q)
            (.resp status1 cl1 chunks1) r2).localFile = none) ∧
       (download_with_resume localPath fileSize (some q)
          (.resp status1 cl1 chunks1) r2).events.head? =
        some (.openWrite localPath chunks2.flatten)) := by
  constructor
  · have h400 : ¬ 400 ≤ status := Nat.not_le.mpr hlt
    have hp' : (0:Int) < (p.length : Int) := by
      exact_mod_cast List.length_pos.mpr hp
    have hreset : (decide ((0:Int) < ((p.length : Nat) : Int)) &&
        decide (status ≠ 206)) = true := by
      simp [hp', h206]
    obtain ⟨k, hk⟩ := chunkWrite_take info.hash.isSome chunks 0
    simp only [download_file_resume, Option.map_some', Option.getD_some, if_neg h400, hreset,
      if_true]
    refine ⟨?_, ⟨k, ?_⟩⟩
    · split
      · rfl
      · split
        · rfl
        · split <;> rfl
    · split
      · exact Or.inl (by simpa using congrArg some hk)
      · split
        · exact Or.inl (by simpa using congrArg some hk)
        · split
          · exact Or.inl (by simpa using congrArg some hk)
          · exact Or.inr ⟨rfl, by simpa using congrArg some hk⟩
  · have hq' : (0:Int) < ((q.length : Nat) : Int) := by
      exact_mod_cast List.length_pos.mpr hq0
    have hab : managerResumes fileSize (some q) = true := by
      simp [managerResumes, hq', hqsz]
    have h400b : ¬ 400 ≤ status1 := Nat.not_le.mpr hltb
    simp only [download_with_resume, if_neg h400b]
    rw [if_pos ⟨hab, h206b⟩]
    cases r2 with
    | net => exact Or.inl ⟨rfl, rfl⟩
    | resp st2 cl2 chunks2 =>
        dsimp only
        by_cases h4 : 400 ≤ st2
        · rw [if_pos h4]
          exact Or.inl ⟨rfl, rfl⟩
        · rw [if_neg h4]
          split
          · exact Or.inr ⟨st2, cl2, chunks2, rfl, Or.inl rfl, rfl⟩
          · exact Or.inr ⟨st2, cl2, chunks2, rfl, Or.inr rfl, rfl⟩

/-- C7 (witness): api.py variant — a 10-byte expected file with 3 partial
bytes; the 200 reply makes the attempt unlink the partial temp file first and
leaves a prefix of the fresh body only. manager.py variant — a 4-byte
expected file with 1 partial byte at the destination; the ranged request gets
200, the fallback request's 4-byte body is written from scratch. -/
theorem resume_non206_restarts_witness :
    ((download_file_resume (fun _ => "h") "d" ⟨10, none⟩ (some [9, 9, 9]) none
        (.resp 200 (some 5) [[1, 2, 3, 4, 5]])).events.head? =
      some (.unlink (tempName "d")) ∧
     ∃ k, (download_file_resume (fun _ => "h") "d" ⟨10, none⟩ (some [9, 9, 9]) none
          (.resp 200 (some 5) [[1, 2, 3, 4, 5]])).temp =
        some (([[1, 2, 3, 4, 5]].take k).flatten) ∨
      ((download_file_resume (fun _ => "h") "d" ⟨10, none⟩ (some [9, 9, 9]) none
          (.resp 200 (some 5) [[1, 2, 3, 4, 5]])).temp = none ∧
       (download_file_resume (fun _ => "h") "d" ⟨10, none⟩ (some [9, 9, 9]) none
          (.resp 200 (some 5) [[1, 2, 3, 4, 5]])).dest =
        some (([[1, 2, 3, 4, 5]].take k).flatten))) ∧
    (((download_with_resume "m" 4 (some [7])
          (.resp 200 none [[1]]) (.resp 200 none [[1, 2, 3, 4]])).localFile = some [7] ∧
       (download_with_resume "m" 4 (some [7])
          (.resp 200 none [[1]]) (.resp 200 none [[1, 2, 3, 4]])).events = []) ∨
     ∃ st2 cl2 chunks2, (.resp 200 none [[1, 2, 3, 4]] : Resp) = .resp st2 cl2 chunks2 ∧
       ((download_with_resume "m" 4 (some [7])
            (.resp 200 none [[1]]) (.resp 200 none [[1, 2, 3, 4]])).localFile =
          some chunks2.flatten ∨
        (download_with_resume "m" 4 (some [7])
            (.resp 200 none [[1]]) (.resp 200 none [[1, 2, 3, 4]])).localFile = none) ∧
       (download_with_resume "m" 4 (some [7])
          (.resp 200 none [[1]]) (.resp 200 none [[1, 2, 3, 4]])).events.head? =
        some (.openWrite "m" chunks2.flatten)) :=
  resume_non206_restarts (fun _ => "h") "d" ⟨10, none⟩ [9, 9, 9] none 200 (some 5)
    [[1, 2, 3, 4, 5]] "m" 4 [7] 200 none [[1]] (.resp 200 none [[1, 2, 3, 4]])
    (by decide) (by decide) (by decide) (by decide) (by decide) (by decide) (by decide)

theorem verify_singleton (hd : List Nat → String) (t : String) (c : List Nat) (h : String) :
    verify_file_integrity hd (fun q => if q = t then some ⟨true, true, c⟩ else none) t h =
      (hd c == h) := by
  simp [verify_file_integrity, sha256]

theorem tempName_ne (dest : String) : tempName dest ≠ dest := by
  intro h
  have hlen := congrArg String.length h
  rw [tempName, String.length_append] at hlen
  have h4 : (".tmp" : String).length = 4 := rfl
  rw [h4] at hlen
  omega

/-- Every run of the embedded `download_file_resume` has one of three shapes:
an immediate failure touching nothing, a failure after writing only to the
temporary file, or a success that writes only to the temporary file and then
promotes it, with the promoted byte count equal to the returned total and the
digest gate passed whenever a hash is known. -/
theorem resume_cases (hd : List Nat → String) (dest : String) (info : DlFileInfo)
    (temp0 dest0 : Option (List Nat)) (r : Resp) :
    (∃ e, download_file_resume hd dest info temp0 dest0 r =
        ⟨[], temp0, dest0, .error e⟩) ∨
    (∃ ev1 wb tc e, (ev1 = ([] : List Ev) ∨ ev1 = [.unlink (tempName dest)]) ∧
      download_file_resume hd dest info temp0 dest0 r =
        ⟨ev1 ++ [.openWrite (tempName dest) wb], some tc, dest0, .error e⟩) ∨
    (∃ ev1 wb b t, (ev1 = ([] : List Ev) ∨ ev1 = [.unlink (tempName dest)]) ∧
      ((b.length : Nat) : Int) = t ∧ (∀ h, info.hash = some h → hd b = h) ∧
      download_file_resume hd dest info temp0 dest0 r =
        ⟨ev1 ++ [.openWrite (tempName dest) wb] ++
            (if dest0.isSome then [Ev.unlink dest] else []) ++ [.rename (tempName dest) dest],
          none, some b, .ok t⟩) := by
  cases r with
  | net => exact Or.inl ⟨.nameError, rfl⟩
  | resp status cl chunks =>
      by_cases h400 : 400 ≤ status
      · exact Or.inl ⟨.nameError, by simp [download_file_resume, h400]⟩
      · simp only [download_file_resume, if_neg h400]
        cases temp0 with
        | none =>
            simp only [Option.map_none', Option.getD_none, lt_irrefl, decide_False,
              Bool.false_and, Bool.false_eq_true, if_false, Option.getD_none, List.nil_append]
            set w := chunkWrite info.hash.isSome chunks 0 with hw
            by_cases hloop : w.2.2 = false
            · rw [if_pos hloop]
              exact Or.inr (Or.inl ⟨[], w.1, w.1, .attributeError, Or.inl rfl, rfl⟩)
            · rw [if_neg hloop]
              by_cases hver : (match info.hash with
                  | none => true
                  | some h => verify_file_integrity hd
                      (fun p => if p = tempName dest then some ⟨true, true, w.1⟩ else none)
                      (tempName dest) h) = false
              · rw [if_pos hver]
                exact Or.inr (Or.inl ⟨[], w.1, w.1, .nameError, Or.inl rfl, rfl⟩)
              · rw [if_neg hver]
                by_cases hsz : w.2.1 ≠ 0 + cl.getD (info.size - 0)
                · rw [if_pos hsz]
                  exact Or.inr (Or.inl ⟨[], w.1, w.1, .nameError, Or.inl rfl, rfl⟩)
                · rw [if_neg hsz]
                  refine Or.inr (Or.inr ⟨[], w.1, w.1, 0 + cl.getD (info.size - 0),
                    Or.inl rfl, ?_, ?_, by simp⟩)
                  · have hlen := chunkWrite_length info.hash.isSome chunks 0
                    rw [← hw] at hlen
                    omega
                  · intro h hh
                    rw [hh] at hver
                    simp only [verify_singleton] at hver
                    simpa using hver
        | some l =>
            simp only [Option.map_some', Option.getD_some]
            by_cases hreset : (decide ((0:Int) < ((l.length : Nat) : Int))
                && decide (status ≠ 206)) = true
            · simp only [hreset, if_true, Option.getD_none, List.nil_append]
              set w := chunkWrite info.hash.isSome chunks 0 with hw
              by_cases hloop : w.2.2 = false
              · rw [if_pos hloop]
                exact Or.inr (Or.inl ⟨[.unlink (tempName dest)], w.1, w.1, .attributeError,
                  Or.inr rfl, rfl⟩)
              · rw [if_neg hloop]
                by_cases hver : (match info.hash with
                    | none => true
                    | some h => verify_file_integrity hd
                        (fun p => if p = tempName dest then some ⟨true, true, w.1⟩ else none)
                        (tempName dest) h) = false
                · rw [if_pos hver]
                  exact Or.inr (Or.inl ⟨[.unlink (tempName dest)], w.1, w.1, .nameError,
                    Or.inr rfl, rfl⟩)
                · rw [if_neg hver]
                  by_cases hsz : w.2.1 ≠ 0 + cl.getD (info.size - 0)
                  · rw [if_pos hsz]
                    exact Or.inr (Or.inl ⟨[.unlink (tempName dest)], w.1, w.1, .nameError,
                      Or.inr rfl, rfl⟩)
                  · rw [if_neg hsz]
                    refine Or.inr (Or.inr ⟨[.unlink (tempName dest)], w.1, w.1,
                      0 + cl.getD (info.size - 0), Or.inr rfl, ?_, ?_, by simp⟩)
                    · have hlen := chunkWrite_length info.hash.isSome chunks 0
                      rw [← hw] at hlen
                      omega
                    · intro h hh
                      rw [hh] at hver
                      simp only [verify_singleton] at hver
                      simpa using hver
            · rw [Bool.not_eq_true] at hreset
              simp only [hreset, Bool.false_eq_true, if_false, Option.getD_some]
              set w := chunkWrite info.hash.isSome chunks ((l.length : Nat) : Int) with hw
              by_cases hloop : w.2.2 = false
              · rw [if_pos hloop]
                exact Or.inr (Or.inl ⟨[], w.1, l ++ w.1, .attributeError, Or.inl rfl, rfl⟩)
              · rw [if_neg hloop]
                by_cases hver : (match info.hash with
                    | none => true
                    | some h => verify_file_integrity hd
                        (fun p => if p = tempName dest then some ⟨true, true, l ++ w.1⟩ else none)
                        (tempName dest) h) = false
                · rw [if_pos hver]
                  exact Or.inr (Or.inl ⟨[], w.1, l ++ w.1, .nameError, Or.inl rfl, rfl⟩)
                · rw [if_neg hver]
                  by_cases hsz : w.2.1 ≠ ((l.length : Nat) : Int) + cl.getD
                      (info.size - ((l.length : Nat) : Int))
                  · rw [if_pos hsz]
                    exact Or.inr (Or.inl ⟨[], w.1, l ++ w.1, .nameError, Or.inl rfl, rfl⟩)
                  · rw [if_neg hsz]
                    refine Or.inr (Or.inr ⟨[], w.1, l ++ w.1,
                      ((l.length : Nat) : Int) + cl.getD (info.size - ((l.length : Nat) : Int)),
                      Or.inl rfl, ?_, ?_, by simp⟩)
                    · have hlen := chunkWrite_length info.hash.isSome chunks
                        ((l.length : Nat) : Int)
                      rw [← hw] at hlen
                      simp only [List.length_append]
                      push_cast
                      omega
                    · intro h hh
                      rw [hh] at hver
                      simp only [verify_singleton] at hver
                      simpa using hver

/-- C1 (counterexample): the claim "every transfer writes downloaded bytes
only to a temporary path, and renames only after the byte count equals the
expected size" is false on the code twice over. (i) The simple strategy
`download_file` streams the body directly into the destination path `"d"`.
(ii) `download_file_resume` promotes the temporary file when the byte count
equals the *header-derived* total (`Content-Length` = 3), not the manifest's
expected size (10): with no hash known it renames and returns 3 even though
3 ≠ 10. -/
theorem transporter_temp_only_cex :
    Ev.openWrite "d" [1, 2, 3] ∈ (download_file "d" (.resp 200 (some 3) [[1, 2, 3]])).events ∧
    Ev.rename (tempName "d") "d" ∈
      (download_file_resume (fun _ => "") "d" ⟨10, none⟩ none none
        (.resp 200 (some 3) [[1, 2, 3]])).events ∧
    (download_file_resume (fun _ => "") "d" ⟨10, none⟩ none none
        (.resp 200 (some 3) [[1, 2, 3]])).result = .ok 3 ∧
    (3 : Int) ≠ (10 : Int) := by
  refine ⟨?_, ?_, ?_, ?_⟩ <;> decide

/-- C1 (amended): only the resumable strategy confines its byte writes to the
temporary path `dest ++ ".tmp"` (which is never the destination path), and it
emits its rename only from the temporary path to the destination and only on
a successful run: the promoted content's byte count equals the returned total
(the header-derived `total` of api.py line 123) and, whenever an expected
hash is known, the recomputed digest of the promoted content equals it. The
simple strategy, by contrast, writes directly into the destination
(`transporter_temp_only_cex`). -/
theorem resume_writes_only_temp (hd : List Nat → String) (dest : String) (info : DlFileInfo)
    (temp0 dest0 : Option (List Nat)) (r : Resp) :
    (∀ q bs, Ev.openWrite q bs ∈ (download_file_resume hd dest info temp0 dest0 r).events →
      q = tempName dest) ∧
    tempName dest ≠ dest ∧
    (∀ s d, Ev.rename s d ∈ (download_file_resume hd dest info temp0 dest0 r).events →
      s = tempName dest ∧ d = dest ∧
      ∃ t b, (download_file_resume hd dest info temp0 dest0 r).result = .ok t ∧
        (download_file_resume hd dest info temp0 dest0 r).dest = some b ∧
        ((b.length : Nat) : Int) = t ∧ ∀ h, info.hash = some h → hd b = h) := by
  rcases resume_cases hd dest info temp0 dest0 r with ⟨e, hout⟩ | ⟨ev1, wb, tc, e, hev1, hout⟩ |
    ⟨ev1, wb, b, t, hev1, hlen, hdig, hout⟩
  · rw [hout]
    exact ⟨fun q bs hmem => by simp at hmem, tempName_ne dest, fun s d hmem => by simp at hmem⟩
  · rw [hout]
    refine ⟨?_, tempName_ne dest, ?_⟩
    · intro q bs hmem
      rcases hev1 with h1 | h1 <;> subst h1 <;> simp at hmem <;> tauto
    · intro s d hmem
      rcases hev1 with h1 | h1 <;> subst h1 <;> simp at hmem
  · rw [hout]
    refine ⟨?_, tempName_ne dest, ?_⟩
    · intro q bs hmem
      rcases hev1 with h1 | h1 <;> subst h1 <;>
        by_cases hd0 : dest0.isSome = true <;> simp [hd0] at hmem <;> tauto
    · intro s d hmem
      have hsd : s = tempName dest ∧ d = dest := by
        rcases hev1 with h1 | h1 <;> subst h1 <;>
          by_cases hd0 : dest0.isSome = true <;> simp [hd0] at hmem <;> tauto
      exact ⟨hsd.1, hsd.2, t, b, rfl, rfl, hlen, hdig⟩

/-- C1 (witness for the amended theorem): a successful resumable run on a
5-byte file; the rename event is present and the theorem yields the promotion
guarantees for it. -/
theorem resume_writes_only_temp_witness :
    tempName "d" = tempName "d" ∧ "d" = "d" ∧
    ∃ t b, (download_file_resume (fun _ => "x") "d" ⟨5, some "x"⟩ none none
        (.resp 200 (some 5) [[1, 2, 3, 4, 5]])).result = .ok t ∧
      (download_file_resume (fun _ => "x") "d" ⟨5, some "x"⟩ none none
        (.resp 200 (some 5) [[1, 2, 3, 4, 5]])).dest = some b ∧
      ((b.length : Nat) : Int) = t ∧
      ∀ h, ((⟨5, some "x"⟩ : DlFileInfo)).hash = some h → (fun _ => "x") b = h :=
  (resume_writes_only_temp (fun _ => "x") "d" ⟨5, some "x"⟩ none none
    (.resp 200 (some 5) [[1, 2, 3, 4, 5]])).2.2 (tempName "d") "d" (by decide)

/-! ## TransferStrategy — the per-file selection of `download_file_smart`
(api.py lines 59–93) and the range splitting of `download_file_parallel`
(api.py lines 170–226) -/

/-- The four terminal behaviours `download_file_smart` can select. -/
inductive Strategy where
  | complete
  | simple
  | resumable
  | parallelRanged
  deriving DecidableEq, Repr

/-- Python `"bytes" in s`: substring containment, expressed via `splitOn`
(`s` contains `"bytes"` iff splitting on it yields at least two pieces). -/
def containsBytes (s : String) : Bool := 2 ≤ (s.splitOn "bytes").length

/-- api.py lines 79–88: the HEAD probe. `none` models
`requests.RequestException` (leaving `supports_ranges = False`); otherwise
the status code and the `Accept-Ranges` header (`""` when absent), with
support recorded only for a status `< 400` whose header contains `"bytes"`. -/
def supportsRanges (headOutcome : Option (Nat × String)) : Bool :=
  match headOutcome with
  | none => false
  | some (st, ar) => decide (st < 400) && containsBytes ar

/-- The selection logic of `ModSyncAPI.download_file_smart` (api.py 59–93):
`destSize` is `dest.stat().st_size` when `dest.exists()` else `none`;
the order of tests is exactly the source's: non-positive size raises
`ValueError`; an existing destination short-circuits (equal size → already
complete, any other size → resumable, regardless of the size tier); then the
size tiers `< 1 MiB` → simple, `< 50 MiB` → resumable, else the Range probe
decides between parallel-ranged and resumable. -/
def download_file_smart_select (fileSize : Int) (destSize : Option Int)
    (headOutcome : Option (Nat × String)) : Except PyErr Strategy :=
  if fileSize ≤ 0 then .error .valueError
  else
    match destSize with
    | some s => if s = fileSize then .ok .complete else .ok .resumable
    | none =>
        if fileSize < 1048576 then .ok .simple
        else if fileSize < 52428800 then .ok .resumable
        else if supportsRanges headOutcome then .ok .parallelRanged
        else .ok .resumable

/-- The selection rules exactly as claim C6 words them (second definition for
the refinement comparison): existing destination of equal size → complete;
else size `< 1 MiB` → simple; else `< 50 MiB` → resumable; else probe. -/
def claimedSelectC6 (fileSize : Int) (destSize : Option Int)
    (headOutcome : Option (Nat × String)) : Strategy :=
  if destSize = some fileSize then .complete
  else if fileSize < 1048576 then .simple
  else if fileSize < 52428800 then .resumable
  else if supportsRanges headOutcome then .parallelRanged
  else .resumable

/-- The amended selection rules: as the claim, except that a destination
existing with a size different from the expected size selects the resumable
strategy regardless of the size tier, and a non-positive expected size raises
`ValueError`. -/
def amendedSelectC6 (fileSize : Int) (destSize : Option Int)
    (headOutcome : Option (Nat × String)) : Except PyErr Strategy :=
  if fileSize ≤ 0 then .error .valueError
  else if destSize = some fileSize then .ok .complete
  else if destSize.isSome then .ok .resumable
  else if fileSize < 1048576 then .ok .simple
  else if fileSize < 52428800 then .ok .resumable
  else if supportsRanges headOutcome then .ok .parallelRanged
  else .ok .resumable

/-- api.py line 174:
`part_count = max(2, min(self.max_workers, file_size // (50*1024*1024)))`. -/
def part_count (maxWorkers : Nat) (fileSize : Nat) : Nat :=
  max 2 (min maxWorkers (fileSize / 52428800))

/-- api.py line 207: `start = i * part_size` with
`part_size = file_size // part_count`. -/
def rangeStart (fileSize pc i : Nat) : Nat := i * (fileSize / pc)

/-- api.py line 208:
`end = file_size - 1 if i == part_count - 1 else (i + 1) * part_size - 1`. -/
def rangeEnd (fileSize pc i : Nat) : Nat :=
  if i = pc - 1 then fileSize - 1 else (i + 1) * (fileSize / pc) - 1

/-- C6 (counterexample): the claim's size-ordered rules say an expected size
of 10 bytes (< 1 MiB) uses the simple strategy, but the code, seeing the
destination exist with size 5 ≠ 10, selects the resumable strategy before
ever reaching the size tiers. -/
theorem smart_select_cex :
    download_file_smart_select 10 (some 5) none = .ok .resumable ∧
    claimedSelectC6 10 (some 5) none = .simple ∧
    Strategy.resumable ≠ Strategy.simple := by
  refine ⟨rfl, rfl, by decide⟩

/-- C6 (amended): the code's selection equals the claim's rules amended with
the existing-destination-of-different-size → resumable rule (and `ValueError`
on non-positive sizes); and for files of at least 50 MiB the parallel strategy
splits into `N = max(2, min(maxWorkers, size div 50 MiB))` ranges that are
contiguous and concatenated by byte offset: range 0 starts at byte 0, each
range begins right after its predecessor ends, and the last range ends at
byte `size - 1`. -/
theorem smart_select_amended :
    (∀ fileSize destSize headOutcome,
      download_file_smart_select fileSize destSize headOutcome =
        amendedSelectC6 fileSize destSize headOutcome) ∧
    (∀ maxWorkers fileSize : Nat, 52428800 ≤ fileSize →
      part_count maxWorkers fileSize = max 2 (min maxWorkers (fileSize / 52428800)) ∧
      rangeStart fileSize (part_count maxWorkers fileSize) 0 = 0 ∧
      (∀ i, i + 1 < part_count maxWorkers fileSize →
        rangeEnd fileSize (part_count maxWorkers fileSize) i + 1 =
          rangeStart fileSize (part_count maxWorkers fileSize) (i + 1)) ∧
      rangeEnd fileSize (part_count maxWorkers fileSize) (part_count maxWorkers fileSize - 1) =
        fileSize - 1) := by
  constructor
  · intro fileSize destSize headOutcome
    rw [download_file_smart_select.eq_def, amendedSelectC6]
    by_cases h0 : fileSize ≤ 0
    · simp [h0]
    · simp only [h0, if_false]
      cases destSize with
      | none => simp
      | some s =>
          by_cases hs : s = fileSize
          · simp [hs]
          · simp [hs]
  · intro mw n hn
    have hpcpos : 0 < part_count mw n := lt_of_lt_of_le (by norm_num) (le_max_left 2 _)
    have hpcle : part_count mw n ≤ n :=
      max_le (by omega) (le_trans (min_le_right _ _) (Nat.div_le_self n _))
    have hps1 : 1 ≤ n / part_count mw n := (Nat.one_le_div_iff hpcpos).mpr hpcle
    refine ⟨rfl, by simp [rangeStart], ?_, ?_⟩
    · intro i hi
      rw [rangeEnd, if_neg (by omega), rangeStart]
      have hq : 1 ≤ (i + 1) * (n / part_count mw n) :=
        Nat.succ_le_of_lt (Nat.mul_pos (by omega) (by omega))
      omega
    · rw [rangeEnd, if_pos rfl]

/-- C6 (witness for the amended theorem): the contested selection input, and
the range decomposition of a 100 MiB file with a 4-worker cap (two 50 MiB
parts). -/
theorem smart_select_amended_witness :
    download_file_smart_select 10 (some 5) none = amendedSelectC6 10 (some 5) none ∧
    rangeEnd 104857600 (part_count 4 104857600) 0 + 1 =
      rangeStart 104857600 (part_count 4 104857600) 1 ∧
    rangeEnd 104857600 (part_count 4 104857600) (part_count 4 104857600 - 1) =
      104857600 - 1 :=
  ⟨smart_select_amended.1 10 (some 5) none,
   (smart_select_amended.2 4 104857600 (by norm_num)).2.2.1 0 (by norm_num [part_count]),
   (smart_select_amended.2 4 104857600 (by norm_num)).2.2.2⟩

/-! ## SyncOrchestrator — the mutating pass of `ModSyncAPI.sync`
(api.py lines 376–411)

The pass body is a `try` over (1) the deletion loop, (2) the sorted download
loop with per-file verification, (3) `save_cache`; its `except` runs
`rollback(mods_path)` and re-raises. Per-file outcomes are supplied by
oracles: `delOk f = false` models `(mods_path / f).unlink` raising, and
`UpdOutcome` models `download_file_smart` raising / `verify_file_integrity`
returning false (which raises `IOError`) / success with a returned size. The
lists `tdl`/`tup` are the iteration orders of `to_delete` and
`sorted(to_update)`; the theorems quantify over arbitrary lists, so they
cover every possible set-iteration order. -/

/-- Outcome of processing one `to_update` file (api.py 397–400). -/
inductive UpdOutcome where
  | dlRaise
  | verifyFail
  | ok (size : Int)
  deriving DecidableEq, Repr

/-- `upd f` ended with `cache[f] = hash` (download and verification both
succeeded). -/
def isOkUpd : UpdOutcome → Bool
  | .ok _ => true
  | _ => false

/-- The deletion loop (api.py 380–382): unlink then `cache.pop`; a raising
unlink aborts the loop at that file (its own events unemitted). Returns
`(events, completed)`. -/
def processDeletes (delOk : String → Bool) : List String → List Ev × Bool
  | [] => ([], true)
  | f :: fs =>
      if delOk f then
        let r := processDeletes delOk fs
        (.deleteFile f :: .cachePop f :: r.1, r.2)
      else ([], false)

/-- The download loop (api.py 384–404): per file `download_file_smart`, then
`verify_file_integrity` (raising `IOError` on mismatch), then
`cache[f] = hash`. A raise aborts the loop at that file. Returns
`(events, completed)`. -/
def processUpdates (upd : String → UpdOutcome) (rhash : String → String) :
    List String → List Ev × Bool
  | [] => ([], true)
  | f :: fs =>
      match upd f with
      | .dlRaise => ([.downloadStart f], false)
      | .verifyFail => ([.downloadStart f], false)
      | .ok _ =>
          let r := processUpdates upd rhash fs
          (.downloadStart f :: .cacheSet f (rhash f) :: r.1, r.2)

/-- The mutating body of `sync` (api.py 379–411): deletions, then downloads,
then `save_cache`; any raise skips `save_cache` and runs `rollback` instead,
re-raising. Returns `(events, cachePersisted, raised)`. -/
def syncMutating (delOk : String → Bool) (upd : String → UpdOutcome) (rhash : String → String)
    (tdl tup : List String) : List Ev × Bool × Bool :=
  let d := processDeletes delOk tdl
  if d.2 = false then (d.1 ++ [.rollback], false, true)
  else
    let u := processUpdates upd rhash tup
    if u.2 = false then (d.1 ++ u.1 ++ [.rollback], false, true)
    else (d.1 ++ u.1 ++ [.saveCache], true, false)

/-- Every file in `tup` downloads and verifies successfully. -/
def allVerified (upd : String → UpdOutcome) (tup : List String) : Prop :=
  ∀ f ∈ tup, isOkUpd (upd f) = true

instance (upd : String → UpdOutcome) (tup : List String) : Decidable (allVerified upd tup) :=
  List.decidableBAll _ tup

theorem processDeletes_complete_iff (delOk : String → Bool) (l : List String) :
    (processDeletes delOk l).2 = true ↔ ∀ f ∈ l, delOk f = true := by
  induction l with
  | nil => simp [processDeletes]
  | cons a l ih =>
      by_cases ha : delOk a = true
      · simp [processDeletes, ha, ih]
      · simp [processDeletes, ha]

theorem processUpdates_complete_iff (upd : String → UpdOutcome) (rhash : String → String)
    (l : List String) :
    (processUpdates upd rhash l).2 = true ↔ allVerified upd l := by
  induction l with
  | nil => simp [processUpdates, allVerified]
  | cons a l ih =>
      cases ha : upd a with
      | dlRaise => simp [processUpdates, ha, allVerified, isOkUpd]
      | verifyFail => simp [processUpdates, ha, allVerified, isOkUpd]
      | ok s =>
          simp only [processUpdates, ha, allVerified, List.mem_cons] at ih ⊢
          constructor
          · intro h f hf
            rcases hf with rfl | hf
            · simp [ha, isOkUpd]
            · exact (ih.mp h) f hf
          · intro h
            exact ih.mpr fun f hf => h f (Or.inr hf)

theorem downloadStart_not_mem_deletes (delOk : String → Bool) (l : List String) (f : String) :
    Ev.downloadStart f ∉ (processDeletes delOk l).1 := by
  induction l with
  | nil => simp [processDeletes]
  | cons a l ih =>
      by_cases ha : delOk a = true
      · simp [processDeletes, ha, ih]
      · simp [processDeletes, ha]

theorem deleteFile_mem_deletes (delOk : String → Bool) (l : List String)
    (hcomp : (processDeletes delOk l).2 = true) (d : String) (hd : d ∈ l) :
    Ev.deleteFile d ∈ (processDeletes delOk l).1 := by
  induction l with
  | nil => simp at hd
  | cons a l ih =>
      by_cases ha : delOk a = true
      · rcases List.mem_cons.mp hd with rfl | hd'
        · simp [processDeletes, ha]
        · simp only [processDeletes, ha, if_true] at hcomp ⊢
          simp [ih hcomp hd']
      · simp [processDeletes, ha] at hcomp

/-- C4 (counterexample): with `toFetch` empty, "every file in toFetch has
been downloaded and individually verified" holds vacuously, yet a raising
deletion makes the pass skip `save_cache`; so "the cache is persisted if and
only if every file in toFetch has been verified" is false on the code. -/
theorem sync_cache_persist_cex :
    allVerified (fun _ => UpdOutcome.ok 0) [] ∧
    (syncMutating (fun _ => false) (fun _ => UpdOutcome.ok 0) (fun _ => "") ["a"] []).2.1 =
      false := by
  constructor
  · intro f hf
    simp at hf
  · rfl

/-- C4 (amended): in a mutating pass the cache is persisted iff every
deletion succeeded AND every `toFetch` file downloaded and verified; whenever
the pass raises, the cache is not persisted and the trace ends with the
rollback invocation (performed before re-raising); and whenever the cache is
persisted the trace ends with `save_cache`. -/
theorem sync_cache_persist_amended (delOk : String → Bool) (upd : String → UpdOutcome)
    (rhash : String → String) (tdl tup : List String) :
    ((syncMutating delOk upd rhash tdl tup).2.1 = true ↔
      ((∀ f ∈ tdl, delOk f = true) ∧ allVerified upd tup)) ∧
    ((syncMutating delOk upd rhash tdl tup).2.2 = true →
      (syncMutating delOk upd rhash tdl tup).2.1 = false ∧
      (syncMutating delOk upd rhash tdl tup).1.getLast? = some Ev.rollback) ∧
    ((syncMutating delOk upd rhash tdl tup).2.1 = true →
      (syncMutating delOk upd rhash tdl tup).1.getLast? = some Ev.saveCache) := by
  have hdIff := processDeletes_complete_iff delOk tdl
  have huIff := processUpdates_complete_iff upd rhash tup
  rw [syncMutating]
  by_cases hd : (processDeletes delOk tdl).2 = false
  · rw [if_pos hd]
    refine ⟨?_, fun _ => ⟨rfl, by simp⟩, fun h => by simp at h⟩
    constructor
    · intro h
      exact absurd h (by simp)
    · rintro ⟨hall, -⟩
      exact absurd (hdIff.mpr hall) (by simp [hd])
  · rw [if_neg hd]
    by_cases hu : (processUpdates upd rhash tup).2 = false
    · rw [if_pos hu]
      refine ⟨?_, fun _ => ⟨rfl, by simp⟩, fun h => by simp at h⟩
      constructor
      · intro h
        exact absurd h (by simp)
      · rintro ⟨-, hver⟩
        exact absurd (huIff.mpr hver) (by simp [hu])
    · rw [if_neg hu]
      refine ⟨?_, fun h => by simp at h, fun _ => by simp⟩
      constructor
      · intro _
        exact ⟨hdIff.mp (eq_true_of_ne_false hd), huIff.mp (eq_true_of_ne_false hu)⟩
      · intro _
        rfl

/-- C4 (witness for the amended theorem): a raising deletion yields
no-persist plus a trailing rollback; a clean pass ends with `save_cache`. -/
theorem sync_cache_persist_amended_witness :
    ((syncMutating (fun _ => false) (fun _ => UpdOutcome.ok 0) (fun _ => "") ["a"] []).2.1 =
        false ∧
     (syncMutating (fun _ => false) (fun _ => UpdOutcome.ok 0) (fun _ => "") ["a"] []).1.getLast? =
        some Ev.rollback) ∧
    (syncMutating (fun _ => true) (fun _ => UpdOutcome.ok 0) (fun _ => "") ["a"] ["b"]).1.getLast? =
      some Ev.saveCache :=
  ⟨(sync_cache_persist_amended (fun _ => false) (fun _ => UpdOutcome.ok 0) (fun _ => "")
      ["a"] []).2.1 rfl,
   (sync_cache_persist_amended (fun _ => true) (fun _ => UpdOutcome.ok 0) (fun _ => "")
      ["a"] ["b"]).2.2 rfl⟩

theorem deletes_before_aux (delOk : String → Bool) (tdl : List String) (tail : List Ev)
    (j : Nat) (f : String)
    (hj : ((processDeletes delOk tdl).1 ++ tail).get? j = some (Ev.downloadStart f))
    (hcomp : (processDeletes delOk tdl).2 = true) :
    ∀ x ∈ tdl, ∃ i, i < j ∧
      ((processDeletes delOk tdl).1 ++ tail).get? i = some (Ev.deleteFile x) := by
  intro x hx
  have hlen : (processDeletes delOk tdl).1.length ≤ j := by
    by_contra hlt
    push_neg at hlt
    rw [List.get?_append hlt] at hj
    exact downloadStart_not_mem_deletes delOk tdl f (List.get?_mem hj)
  have hmem := deleteFile_mem_deletes delOk tdl hcomp x hx
  obtain ⟨i, hi⟩ := List.mem_iff_get?.mp hmem
  have hilt : i < (processDeletes delOk tdl).1.length := by
    rcases List.get?_eq_some.mp hi with ⟨h, -⟩
    exact h
  exact ⟨i, lt_of_lt_of_le hilt hlen, by rw [List.get?_append hilt]; exact hi⟩

/-- C5: in the trace of a mutating sync pass, if a `toFetch` download starts
at position `j`, then for every file of the `toDelete` list its deletion
event occurs at some earlier position `i < j`: no download begins while any
`toDelete` file remains unprocessed (an aborted deletion loop aborts the pass
before any download starts). -/
theorem sync_deletes_before_downloads (delOk : String → Bool) (upd : String → UpdOutcome)
    (rhash : String → String) (tdl tup : List String) (j : Nat) (f : String)
    (hj : (syncMutating delOk upd rhash tdl tup).1.get? j = some (Ev.downloadStart f)) :
    ∀ x ∈ tdl, ∃ i, i < j ∧
      (syncMutating delOk upd rhash tdl tup).1.get? i = some (Ev.deleteFile x) := by
  intro x hx
  by_cases hd : (processDeletes delOk tdl).2 = false
  · rw [syncMutating, if_pos hd] at hj
    have hmem := List.get?_mem hj
    rcases List.mem_append.mp hmem with hm | hm
    · exact absurd hm (downloadStart_not_mem_deletes delOk tdl f)
    · simp at hm
  · have hcomp : (processDeletes delOk tdl).2 = true := eq_true_of_ne_false hd
    by_cases hu : (processUpdates upd rhash tup).2 = false
    · rw [syncMutating, if_neg hd, if_pos hu] at hj
      rw [syncMutating, if_neg hd, if_pos hu]
      rw [List.append_assoc] at hj ⊢
      exact deletes_before_aux delOk tdl _ j f hj hcomp x hx
    · rw [syncMutating, if_neg hd, if_neg hu] at hj
      rw [syncMutating, if_neg hd, if_neg hu]
      rw [List.append_assoc] at hj ⊢
      exact deletes_before_aux delOk tdl _ j f hj hcomp x hx

/-- C5 (witness): with `toDelete = ["a"]` and `toFetch = ["b"]` the download
of `"b"` sits at trace position 2 and the deletion of `"a"` occurs earlier. -/
theorem sync_deletes_before_downloads_witness :
    ∃ i, i < 2 ∧
      (syncMutating (fun _ => true) (fun _ => UpdOutcome.ok 0) (fun _ => "")
          ["a"] ["b"]).1.get? i = some (Ev.deleteFile "a") :=
  sync_deletes_before_downloads (fun _ => true) (fun _ => UpdOutcome.ok 0) (fun _ => "")
    ["a"] ["b"] 2 "b" (by decide) "a" (by decide)

/-! ## BackupVault — `utils.create_backup` (utils.py lines 94–184) and
`utils.check_disk_space` (utils.py lines 310–313)

`get_free_space` is an input (`freeSpace`, in bytes). The caller multiplies
the affected size by the float `1.2`; the embedding uses the exact rational
`6/5` for that product (the claims here concern control flow, not float
rounding). Per-file `dst.parent.mkdir` calls inside the copy loop are not
recorded as events; every copy/link/write of the backup store is. -/

/-- A file in the synchronized tree as `create_backup` sees it: `st_size` and
its `sha256` digest. The source only computes the digest for files smaller
than 100 MiB; larger files join no dedup group (and, in this code, are never
copied at all — only counted in `total_size`). -/
structure BkFile where
  size : Nat
  digest : String
  deriving DecidableEq, Repr

/-- `utils.check_disk_space(path, required_bytes)`:
`free_space >= required_bytes + 100 * 1024 * 1024`. -/
def check_disk_space (freeSpace : Nat) (required : ℚ) : Bool :=
  decide (required + 100 * 1024 * 1024 ≤ (freeSpace : ℚ))

/-- `total_size` of utils.py lines 103–116: the sizes of all affected files
that exist, hashed or not. -/
def backupTotalSize (mods : String → Option BkFile) (files : List String) : Nat :=
  (files.filterMap (fun r => (mods r).map (·.size))).sum

/-- The files that enter `file_groups`: they exist, are < 100 MiB (larger
files get `file_hash = None`), and their `sha256` digest is truthy — the
`if file_hash:` guard at utils.py line 109 also drops files whose digest came
back as the falsy `""` (unreadable file). Paired with their metadata, in
iteration order. -/
def hashedFiles (mods : String → Option BkFile) (files : List String) :
    List (String × BkFile) :=
  (files.filterMap (fun r => (mods r).map (fun f => (r, f)))).filter
    (fun p => decide (p.2.size < 104857600) && (p.2.digest != ""))

/-- `file_groups`: an insertion-ordered association of digest to the relative
paths carrying it. -/
def groupFiles (hashed : List (String × BkFile)) : List (String × List String) :=
  hashed.foldl (fun acc p =>
    if acc.any (fun g => g.1 = p.2.digest) then
      acc.map (fun g => if g.1 = p.2.digest then (g.1, g.2 ++ [p.1]) else g)
    else acc ++ [(p.2.digest, [p.1])]) []

/-- The copy loop of utils.py lines 136–161 for one digest group: the first
path is copied from the source tree into the backup root; every further path
sharing the digest is hard-linked to that backup copy on non-Windows
platforms, or copied on Windows — where `shutil.copy2(src, other_dst)` at
utils.py line 153 reads from `src`, which is still bound to the FIRST file's
source path, not the other file's own path. -/
def copyGroupEvents (modsPath backupRoot : String) (isWindows : Bool)
    (g : String × List String) : List Ev :=
  match g.2 with
  | [] => []
  | first :: others =>
      Ev.copy (modsPath ++ "/" ++ first) (backupRoot ++ "/" ++ first) ::
        others.map (fun o =>
          if isWindows then Ev.copy (modsPath ++ "/" ++ first) (backupRoot ++ "/" ++ o)
          else Ev.hardlink (backupRoot ++ "/" ++ first) (backupRoot ++ "/" ++ o))

/-- `utils.create_backup(mods_path, files)`. Empty `files` returns `None`
immediately. Otherwise the affected files are grouped and summed (reads
only), then `check_disk_space(mods_path, total_size * 1.2)` gates the whole
snapshot: on failure the source executes `logger.warning(...)` — but
utils.py defines no module-level `logger`, so the call raises `NameError`
before reaching its `return None`, and no filesystem mutation has happened.
On success the backup root is created and populated; the final
`logger.info(...)` at utils.py line 183 then raises `NameError` as well
(after all mutation). The manifest and last-backup-pointer writes are
recorded with empty byte content (their JSON/text payload is not modelled). -/
def create_backup (freeSpace : Nat) (modsPath backupsDir stamp : String) (isWindows : Bool)
    (mods : String → Option BkFile) (files : List String) :
    List Ev × Except PyErr (Option String) :=
  if files = [] then ([], .ok none)
  else
    let total := backupTotalSize mods files
    if check_disk_space freeSpace ((total : ℚ) * (6 / 5)) = false then
      ([], .error .nameError)
    else
      let backupRoot := backupsDir ++ "/" ++ stamp
      let evs := Ev.mkdir backupRoot ::
        ((groupFiles (hashedFiles mods files)).map
            (copyGroupEvents modsPath backupRoot isWindows)).flatten ++
        [Ev.openWrite (backupRoot ++ "/backup_manifest.json") [],
         Ev.openWrite (modsPath ++ "/.modsync_last_backup.txt") [],
         Ev.cleanup]
      (evs, .error .nameError)

/-- C9 (code_bug): when the pre-flight disk check fails (free space 0 against
a 1000-byte affected file), `create_backup` performs no filesystem mutation —
its event trace is empty — but instead of returning `None` as the spec and
its own `return None` line intend, it raises `NameError`, because the
`logger.warning` call on the failure branch references a module-level
`logger` that utils.py never defines. With ample free space the same inputs
do mutate the backup store (first event: creating the snapshot root), showing
the failure branch specifically is mutation-free. -/
theorem create_backup_insufficient_space_raises :
    create_backup 0 "mods" "backups" "2025-01-01_00-00-00" false
      (fun _ => some ⟨1000, "h"⟩) ["a.jar"] = ([], .error .nameError) ∧
    (create_backup 1000000000000 "mods" "backups" "2025-01-01_00-00-00" false
      (fun _ => some ⟨1000, "h"⟩) ["a.jar"]).1.head? =
        some (Ev.mkdir "backups/2025-01-01_00-00-00") := by
  have htot : backupTotalSize (fun _ => some ⟨1000, "h"⟩) ["a.jar"] = 1000 := rfl
  constructor
  · rw [create_backup, if_neg (by decide), htot]
    rw [if_pos]
    rw [check_disk_space]
    apply decide_eq_false
    push_cast
    norm_num
  · rw [create_backup, if_neg (by decide), htot]
    rw [if_neg]
    · rfl
    · rw [check_disk_space]
      simp only [decide_eq_false_iff_not, not_not, not_le, not_lt]
      push_cast
      norm_num

/-! ## Batch parallel download — `ModSyncAPI.download_files_parallel`
(api.py lines 255–333)

Workers run on a thread pool, but each worker mutates only its own file's
destination path and its own key of the shared `cache` dict, so the final
per-key state is interleaving-independent; the embedding runs the workers in
list order over explicit state. The per-file download/verify outcome is an
oracle; the cancellation flag is modelled unset (a set flag makes the worker
raise before its `try`, a path outside this claim). -/

/-- Outcome of one worker's `download_file_smart` + `verify_file_integrity`
attempt: success with the returned size, an exception with message `m` from
the download, or a verification mismatch (which raises
`IOError("Хеш не совпадает")`). -/
inductive BatchOutcome where
  | ok (size : Int)
  | dlRaise (msg : String)
  | verifyFail
  deriving DecidableEq, Repr

/-- The worker ended in the success path. -/
def isOkBatch : BatchOutcome → Bool
  | .ok _ => true
  | _ => false

/-- Destination existence and hash-cache entry per relative path. -/
structure BatchState where
  fsHas : String → Bool
  cache : String → Option String

/-- The events one `worker(rel_path)` emits (api.py 294–321): on success the
download start, the cache assignment, then the result tuple; on failure the
download start, then `dest.unlink(missing_ok=True)`, then
`cache.pop(rel_path, None)`, and only then the failure result tuple. -/
def workerEvents (hash : String → String) (outcome : String → BatchOutcome) (f : String) :
    List Ev :=
  match outcome f with
  | .ok _ => [.downloadStart f, .cacheSet f (hash f), .record f none]
  | .dlRaise m => [.downloadStart f, .unlink f, .cachePop f, .record f (some m)]
  | .verifyFail =>
      [.downloadStart f, .unlink f, .cachePop f, .record f (some "Хеш не совпадает")]

/-- One worker: events, state update (touching only key `f`), result tuple. -/
def batchWorker (hash : String → String) (outcome : String → BatchOutcome) (f : String)
    (st : BatchState) : List Ev × BatchState × (String × Int × Option String) :=
  match outcome f with
  | .ok s =>
      (workerEvents hash outcome f,
       ⟨fun p => if p = f then true else st.fsHas p,
        fun p => if p = f then some (hash f) else st.cache p⟩,
       (f, s, none))
  | .dlRaise m =>
      (workerEvents hash outcome f,
       ⟨fun p => if p = f then false else st.fsHas p,
        fun p => if p = f then none else st.cache p⟩,
       (f, 0, some m))
  | .verifyFail =>
      (workerEvents hash outcome f,
       ⟨fun p => if p = f then false else st.fsHas p,
        fun p => if p = f then none else st.cache p⟩,
       (f, 0, some "Хеш не совпадает"))

/-- `download_files_parallel` over the submitted file list: concatenated
worker events, final state, and the collected result tuples. -/
def download_files_parallel (hash : String → String) (outcome : String → BatchOutcome) :
    List String → BatchState → List Ev × BatchState × List (String × Int × Option String)
  | [], st => ([], st, [])
  | f :: fs, st =>
      let w := batchWorker hash outcome f st
      let r := download_files_parallel hash outcome fs w.2.1
      (w.1 ++ r.1, r.2.1, w.2.2 :: r.2.2)

theorem batchWorker_state_other (hash : String → String) (outcome : String → BatchOutcome)
    (g : String) (st : BatchState) (f : String) (hne : f ≠ g) :
    ((batchWorker hash outcome g st).2.1).fsHas f = st.fsHas f ∧
    ((batchWorker hash outcome g st).2.1).cache f = st.cache f := by
  cases h : outcome g <;> simp [batchWorker, h, hne]

theorem batch_state_notmem (hash : String → String) (outcome : String → BatchOutcome)
    (fs : List String) (st : BatchState) (f : String) (hf : f ∉ fs) :
    (download_files_parallel hash outcome fs st).2.1.fsHas f = st.fsHas f ∧
    (download_files_parallel hash outcome fs st).2.1.cache f = st.cache f := by
  induction fs generalizing st with
  | nil => exact ⟨rfl, rfl⟩
  | cons g gs ih =>
      have hne : f ≠ g := fun h => hf (h ▸ List.mem_cons_self g gs)
      have hgs : f ∉ gs := fun h => hf (List.mem_cons_of_mem g h)
      rcases ih (batchWorker hash outcome g st).2.1 hgs with ⟨h1, h2⟩
      rcases batchWorker_state_other hash outcome g st f hne with ⟨h3, h4⟩
      exact ⟨h1.trans h3, h2.trans h4⟩

theorem batchWorker_state_self (hash : String → String) (outcome : String → BatchOutcome)
    (f : String) (st : BatchState) :
    (isOkBatch (outcome f) = false →
      ((batchWorker hash outcome f st).2.1).fsHas f = false ∧
      ((batchWorker hash outcome f st).2.1).cache f = none) ∧
    (∀ s, outcome f = .ok s →
      ((batchWorker hash outcome f st).2.1).fsHas f = true ∧
      ((batchWorker hash outcome f st).2.1).cache f = some (hash f)) := by
  cases h : outcome f <;> simp [batchWorker, h, isOkBatch]

/-- C10: in a batch with pairwise-distinct submitted paths, every file whose
download or verification fails ends with its destination absent and its cache
entry removed — the worker unlinks the destination and pops the cache entry
*before* recording the failure tuple, as the contiguous event block
`[downloadStart, unlink, cachePop, record]` shows — while every successfully
verified file of the same batch keeps its destination and its cache entry
(`cache[f] = hash f`). -/
theorem batch_failed_file_cleanup (hash : String → String) (outcome : String → BatchOutcome)
    (files : List String) (st : BatchState) (f : String)
    (hnd : files.Nodup) (hf : f ∈ files) :
    ((isOkBatch (outcome f) = false →
        (download_files_parallel hash outcome files st).2.1.fsHas f = false ∧
        (download_files_parallel hash outcome files st).2.1.cache f = none) ∧
     (∀ s, outcome f = .ok s →
        (download_files_parallel hash outcome files st).2.1.fsHas f = true ∧
        (download_files_parallel hash outcome files st).2.1.cache f = some (hash f))) ∧
    ∃ l₁ l₂, (download_files_parallel hash outcome files st).1 =
      l₁ ++ workerEvents hash outcome f ++ l₂ := by
  induction files generalizing st with
  | nil => simp at hf
  | cons g gs ih =>
      rcases List.mem_cons.mp hf with rfl | hf'
      · have hnot : f ∉ gs := (List.nodup_cons.mp hnd).1
        constructor
        · constructor
          · intro hfail
            rcases batch_state_notmem hash outcome gs
                (batchWorker hash outcome f st).2.1 f hnot with ⟨h1, h2⟩
            rcases (batchWorker_state_self hash outcome f st).1 hfail with ⟨h3, h4⟩
            exact ⟨h1.trans h3, h2.trans h4⟩
          · intro s hs
            rcases batch_state_notmem hash outcome gs
                (batchWorker hash outcome f st).2.1 f hnot with ⟨h1, h2⟩
            rcases (batchWorker_state_self hash outcome f st).2 s hs with ⟨h3, h4⟩
            exact ⟨h1.trans h3, h2.trans h4⟩
        · refine ⟨[], (download_files_parallel hash outcome gs
            (batchWorker hash outcome f st).2.1).1, ?_⟩
          have hw : (batchWorker hash outcome f st).1 = workerEvents hash outcome f := by
            cases h : outcome f <;> simp [batchWorker, h]
          simp [download_files_parallel, hw]
      · have hnd' : gs.Nodup := (List.nodup_cons.mp hnd).2
        rcases ih (batchWorker hash outcome g st).2.1 hnd' hf' with ⟨hstate, l₁, l₂, hev⟩
        refine ⟨hstate, (batchWorker hash outcome g st).1 ++ l₁, l₂, ?_⟩
        simp [download_files_parallel, hev]

/-- C10 (witness): a two-file batch where `"a"` succeeds and `"b"` fails
verification: `"b"` ends with no destination file and no cache entry and its
cleanup-then-record block appears in the trace. -/
theorem batch_failed_file_cleanup_witness :
    ((isOkBatch ((fun p => if p = "b" then BatchOutcome.verifyFail else BatchOutcome.ok 3)
          "b") = false →
        (download_files_parallel (fun _ => "H")
          (fun p => if p = "b" then BatchOutcome.verifyFail else BatchOutcome.ok 3)
          ["a", "b"] ⟨fun _ => false, fun _ => none⟩).2.1.fsHas "b" = false ∧
        (download_files_parallel (fun _ => "H")
          (fun p => if p = "b" then BatchOutcome.verifyFail else BatchOutcome.ok 3)
          ["a", "b"] ⟨fun _ => false, fun _ => none⟩).2.1.cache "b" = none) ∧
     (∀ s, (fun p => if p = "b" then BatchOutcome.verifyFail else BatchOutcome.ok 3) "b" =
          BatchOutcome.ok s →
        (download_files_parallel (fun _ => "H")
          (fun p => if p = "b" then BatchOutcome.verifyFail else BatchOutcome.ok 3)
          ["a", "b"] ⟨fun _ => false, fun _ => none⟩).2.1.fsHas "b" = true ∧
        (download_files_parallel (fun _ => "H")
          (fun p => if p = "b" then BatchOutcome.verifyFail else BatchOutcome.ok 3)
          ["a", "b"] ⟨fun _ => false, fun _ => none⟩).2.1.cache "b" = some "H")) ∧
    ∃ l₁ l₂, (download_files_parallel (fun _ => "H")
        (fun p => if p = "b" then BatchOutcome.verifyFail else BatchOutcome.ok 3)
        ["a", "b"] ⟨fun _ => false, fun _ => none⟩).1 =
      l₁ ++ workerEvents (fun _ => "H")
        (fun p => if p = "b" then BatchOutcome.verifyFail else BatchOutcome.ok 3) "b" ++ l₂ :=
  batch_failed_file_cleanup (fun _ => "H")
    (fun p => if p = "b" then BatchOutcome.verifyFail else BatchOutcome.ok 3)
    ["a", "b"] ⟨fun _ => false, fun _ => none⟩ "b" (by decide) (by decide)

end ModSync












